import Mathlib

/-!
Verification of the Tool Dispatch & Subagentic Orchestration Engine of the
xcode-mcp repository, as a shallow embedding in Lean 4.

Sources embedded:
- `src/tool_registry.py` (`ToolRegistry._load_implementations`,
  `ToolRegistry.execute_tool`)
- `src/unified_mcp_server.py` (`UnifiedMCPServer.handle_request`,
  `handle_initialize`, `handle_tools_list`, `handle_tools_call`,
  `_handle_langgraph_tool`, `_get_tool_schema_enhanced`)
- `src/langgraph_agent.py` (`XcodeLangGraphAgent._create_tools`,
  `_agent_node`, `_tools_node`, `_should_continue`, `run_sync`)
- `src/mcp_http_server.py` (`verify_api_key`, `websocket_endpoint`)

Python values carried by the protocol are modelled by `JsonValue`; Python
dicts by insertion-ordered association lists (`dictGet` / `dictInsert`
mirror `d[k]` lookup and `d[k] = v` assignment); a raising callable by a
function into `PyResult`; wall-clock time by a `Nat` parameter.
-/

/-- A JSON-like Python value (dict / list / str / int / bool / None).
Dicts are insertion-ordered association lists, as in Python. -/
inductive JsonValue where
  | null : JsonValue
  | bool : Bool → JsonValue
  | num : Int → JsonValue
  | str : String → JsonValue
  | arr : List JsonValue → JsonValue
  | obj : List (String × JsonValue) → JsonValue

/-- Python `d.get(k)` on an insertion-ordered dict. -/
def dictGet {α : Type} : List (String × α) → String → Option α
  | [], _ => none
  | (k', v) :: rest, k => if k' = k then some v else dictGet rest k

/-- Python `d[k] = v`: overwrite in place when the key exists, else append. -/
def dictInsert {α : Type} : List (String × α) → String → α → List (String × α)
  | [], k, v => [(k, v)]
  | (k', v') :: rest, k, v =>
      if k' = k then (k', v) :: rest else (k', v') :: dictInsert rest k v

/-- The result of calling a Python implementation function: a normal return
value, or a raised exception carrying `str(e)`. -/
inductive PyResult where
  | ret : JsonValue → PyResult
  | exn : String → PyResult

/-- Named arguments passed to a tool implementation (`**kwargs`). -/
def Args : Type := List (String × JsonValue)

/-- A tool implementation: a callable from named arguments, which may raise. -/
def Impl : Type := Args → PyResult

/-- `p` is a prefix of `l`, on character lists. -/
def charsHavePrefix : List Char → List Char → Bool
  | [], _ => true
  | _ :: _, [] => false
  | a :: as, b :: bs => a == b && charsHavePrefix as bs

/-- Python `s.startswith(p)`, computed on the underlying character data. -/
def strStartsWith (s p : String) : Bool :=
  charsHavePrefix p.data s.data

/-- Whether `ToolRegistry._load_implementations` registers a module
attribute: `not attr_name.startswith("_") and attr_name in self.tools`
(modules are modelled as listing only their callable attributes, so the
`callable(attr)` test is implicit). -/
def attrRegistered (toolNames : List String) (attrName : String) : Bool :=
  !strStartsWith attrName "_" && decide (attrName ∈ toolNames)

/-- One module's contribution to `self.implementations` in
`ToolRegistry._load_implementations`: for each attribute of the module (in
`dir(module)` order), if it is registered, `self.implementations[attr_name]
= attr`. Polymorphic in the attribute payload so that bindings can be
compared. -/
def bindModuleAttrs {α : Type} (toolNames : List String)
    (acc : List (String × α)) (module : List (String × α)) :
    List (String × α) :=
  module.foldl
    (fun acc p =>
      if attrRegistered toolNames p.1 then dictInsert acc p.1 p.2 else acc)
    acc

/-- `ToolRegistry._load_implementations`: iterate the fixed module list in
order, binding every registered exported callable into the
`implementations` dict.  The catalog (`self.tools`, loaded from
`schemas/xcode-mcp-tools.json`, a data file not present under `src/`) is
abstracted to its key set `toolNames`. -/
def loadImplementations {α : Type} (toolNames : List String)
    (modules : List (List (String × α))) : List (String × α) :=
  modules.foldl (bindModuleAttrs toolNames) []

/-- Whether an entry of a module is a registered export with the given
name (the entries that can bind `name` during the pass). -/
def bindsName {α : Type} (toolNames : List String) (name : String)
    (p : String × α) : Bool :=
  attrRegistered toolNames p.1 && p.1 == name

/-- The binding demanded by the spec sentence "Later modules do not
override earlier bindings for the same name (first-match-wins)": the first
matching exported callable across the concatenated module list. Written
from the spec's words, to be compared with `loadImplementations`. -/
def firstMatchBinding {α : Type} (toolNames : List String)
    (modules : List (List (String × α))) (name : String) : Option α :=
  (modules.flatten.find? (bindsName toolNames name)).map Prod.snd

/-- The binding the code actually produces: the last matching exported
callable across the concatenated module list (later modules override). -/
def lastMatchBinding {α : Type} (toolNames : List String)
    (modules : List (List (String × α))) (name : String) : Option α :=
  (modules.flatten.reverse.find? (bindsName toolNames name)).map Prod.snd

/-- The modules in which `name` occurs as a registered exported callable. -/
def modulesMatching {α : Type} (toolNames : List String)
    (modules : List (List (String × α))) (name : String) :
    List (List (String × α)) :=
  modules.filter (fun m => m.any (bindsName toolNames name))

/-- `ExecutionOutcome`: the dict returned by `ToolRegistry.execute_tool`,
`{"success": True, "result": r}` or `{"success": False, "error": e}`. -/
inductive ExecOutcome where
  | success : JsonValue → ExecOutcome
  | failure : String → ExecOutcome

/-- The Tool Registry after construction: the catalog dict `self.tools`
(name-keyed tool definitions, kept abstract) and the bound
`self.implementations`. Read-only thereafter. -/
structure ToolRegistry where
  tools : List (String × JsonValue)
  implementations : String → Option Impl

/-- `ToolRegistry.execute_tool`: look up the bound implementation; absent
means `Failure("Tool '<name>' not implemented")`; present means invoke it,
catching any exception into `Failure(str(e))` and wrapping a normal return
in `Success`. -/
def ToolRegistry.execute_tool (reg : ToolRegistry) (name : String)
    (args : Args) : ExecOutcome :=
  match reg.implementations name with
  | none => .failure ("Tool \x27" ++ name ++ "\x27 not implemented")
  | some impl =>
    match impl args with
    | .ret v => .success v
    | .exn e => .failure e

-- Helper lemmas about the dict operations.

theorem dictGet_dictInsert_self {α : Type} (l : List (String × α))
    (k : String) (v : α) : dictGet (dictInsert l k v) k = some v := by
  induction l with
  | nil => simp [dictInsert, dictGet]
  | cons p rest ih =>
    by_cases h : p.1 = k
    · simp [dictInsert, dictGet, h]
    · simp [dictInsert, dictGet, h, ih]

theorem dictGet_dictInsert_ne {α : Type} (l : List (String × α))
    (k k' : String) (v : α) (h : k ≠ k') :
    dictGet (dictInsert l k v) k' = dictGet l k' := by
  induction l with
  | nil => simp [dictInsert, dictGet, h]
  | cons p rest ih =>
    by_cases hp : p.1 = k
    · simp [dictInsert, dictGet, hp, h]
    · simp [dictInsert, dictGet, hp, ih]

theorem find?_append {α : Type} (p : α → Bool) (l₁ l₂ : List α) :
    (l₁ ++ l₂).find? p =
      match l₁.find? p with
      | some a => some a
      | none => l₂.find? p := by
  induction l₁ with
  | nil => simp
  | cons a l ih =>
    by_cases h : p a
    · simp [List.find?, h]
    · simp only [List.cons_append, List.find?, h]
      exact ih

/-- The accumulated binding fold, characterized: folding the per-entry
update over a list of entries binds each name to the last entry that
registers it, falling back to the accumulator. -/
theorem dictGet_bind_fold {α : Type} (toolNames : List String)
    (name : String) (entries : List (String × α)) (acc : List (String × α)) :
    dictGet
      (entries.foldl
        (fun acc p =>
          if attrRegistered toolNames p.1 then dictInsert acc p.1 p.2 else acc)
        acc) name =
      match entries.reverse.find? (bindsName toolNames name) with
      | some p => some p.2
      | none => dictGet acc name := by
  induction entries generalizing acc with
  | nil => simp
  | cons e rest ih =>
    simp only [List.foldl_cons, List.reverse_cons, ih, find?_append]
    cases hfind : rest.reverse.find? (bindsName toolNames name) with
    | some p => simp
    | none =>
      simp only [List.find?]
      by_cases hb : bindsName toolNames name e
      · have hparts : attrRegistered toolNames e.1 = true ∧ e.1 = name := by
          simpa [bindsName] using hb
        have hreg' : attrRegistered toolNames name = true :=
          hparts.2 ▸ hparts.1
        simp [hb, hparts.1, hparts.2, hreg', dictGet_dictInsert_self]
      · by_cases hreg : attrRegistered toolNames e.1
        · have hname : e.1 ≠ name := by
            intro heq
            exact hb (by simp [bindsName, heq, heq ▸ hreg])
          simp [hb, hreg, dictGet_dictInsert_ne _ _ _ _ hname]
        · simp [hb, hreg]

theorem loadImplementations_eq_fold_flatten {α : Type} (toolNames : List String)
    (modules : List (List (String × α))) (acc : List (String × α)) :
    modules.foldl (bindModuleAttrs toolNames) acc =
      modules.flatten.foldl
        (fun acc p =>
          if attrRegistered toolNames p.1 then dictInsert acc p.1 p.2 else acc)
        acc := by
  induction modules generalizing acc with
  | nil => simp
  | cons m ms ih =>
    simp only [List.foldl_cons, List.flatten_cons, List.foldl_append]
    exact ih (bindModuleAttrs toolNames acc m)

/-- C1, counterexample. The claim "the binding pass keeps the
implementation from the earliest module; later modules never override that
earlier binding" is false: with a catalog containing `build_project` and
two modules both exporting a callable named `build_project` (payloads 0
and 1 standing for the two distinct callables), the pass binds the name to
the later module's callable, not the earlier one's. -/
theorem c1_counterexample :
    ¬ (∀ (toolNames : List String) (modules : List (List (String × Nat)))
        (name : String),
        1 < (modulesMatching toolNames modules name).length →
        dictGet (loadImplementations toolNames modules) name =
          firstMatchBinding toolNames modules name) := by
  intro h
  have h2 := h ["build_project"]
      [[("build_project", 0)], [("build_project", 1)]] "build_project"
      (by decide)
  exact absurd h2 (by decide)

/-- C1, amended. `ToolRegistry._load_implementations` is last-match-wins:
after registry construction every name is bound to the LAST matching
exported callable across the fixed module ordering — later modules
override earlier bindings for the same name. -/
theorem c1_theorem {α : Type} (toolNames : List String)
    (modules : List (List (String × α))) (name : String) :
    dictGet (loadImplementations toolNames modules) name =
      lastMatchBinding toolNames modules name := by
  unfold loadImplementations lastMatchBinding
  rw [loadImplementations_eq_fold_flatten, dictGet_bind_fold]
  cases modules.flatten.reverse.find? (bindsName toolNames name) with
  | none => simp [dictGet]
  | some p => simp

-- JSON serialization (`json.dumps`). The source uses two renderings:
-- compact separators for response bodies, and `sort_keys=True` for cache
-- keys. Character escaping and the exact separator spelling are elided;
-- both renderings stay injective on the structures the server builds.

mutual
def JsonValue.dumps : JsonValue → String
  | .null => "null"
  | .bool true => "true"
  | .bool false => "false"
  | .num n => toString n
  | .str s => "\"" ++ s ++ "\""
  | .arr xs => "[" ++ dumpsElems xs ++ "]"
  | .obj ps => "\x7b" ++ dumpsFields ps ++ "\x7d"
def dumpsElems : List JsonValue → String
  | [] => ""
  | [x] => JsonValue.dumps x
  | x :: xs => JsonValue.dumps x ++ "," ++ dumpsElems xs
def dumpsFields : List (String × JsonValue) → String
  | [] => ""
  | [p] => "\"" ++ p.1 ++ "\":" ++ JsonValue.dumps p.2
  | p :: ps => "\"" ++ p.1 ++ "\":" ++ JsonValue.dumps p.2 ++ "," ++ dumpsFields ps
end

/-- Lexicographic order on character data (Python string comparison, used
by `json.dumps(..., sort_keys=True)`). -/
def charsLe : List Char → List Char → Bool
  | [], _ => true
  | _ :: _, [] => false
  | a :: as, b :: bs => if a = b then charsLe as bs else decide (a < b)

def strLe (s t : String) : Bool :=
  charsLe s.data t.data

/-- Insert a key-value pair into a key-sorted list. -/
def insertPairByKey (p : String × JsonValue) :
    List (String × JsonValue) → List (String × JsonValue)
  | [] => [p]
  | q :: rest =>
      if strLe p.1 q.1 then p :: q :: rest else q :: insertPairByKey p rest

def sortPairsByKey (ps : List (String × JsonValue)) :
    List (String × JsonValue) :=
  ps.foldr insertPairByKey []

-- `json.dumps(..., sort_keys=True)` sorts every object's keys, at every
-- nesting depth. `canonJson` applies that key ordering structurally, so
-- that the cache key of an argument dict is order-independent.

mutual
def canonJson : JsonValue → JsonValue
  | .null => .null
  | .bool b => .bool b
  | .num n => .num n
  | .str s => .str s
  | .arr xs => .arr (canonList xs)
  | .obj ps => .obj (sortPairsByKey (canonPairs ps))
def canonList : List JsonValue → List JsonValue
  | [] => []
  | x :: xs => canonJson x :: canonList xs
def canonPairs : List (String × JsonValue) → List (String × JsonValue)
  | [] => []
  | p :: ps => (p.1, canonJson p.2) :: canonPairs ps
end

-- ## The orchestration loop (`src/langgraph_agent.py`)

/-- A tool-call request embedded in a reasoning message:
`{"id": ..., "name": ..., "args": ...}` (the alternative
`{"function": {"name", "arguments"}}` shape is collapsed into the same
record; a falsy `id` is modelled as `none`). -/
structure ToolCall where
  id : Option String
  name : String
  args : Args

/-- A conversation turn: `HumanMessage`, `AIMessage` (content plus
requested tool calls), or `ToolMessage` (content plus `tool_call_id`).
Only `AIMessage` has a truthy `tool_calls` attribute. -/
inductive Message where
  | human : String → Message
  | ai : String → List ToolCall → Message
  | tool : String → String → Message

/-- An entry of `AgentState.tool_results`:
`{"tool": t, "result": r, "success": True}` on success,
`{"tool": t, "result": None, "error": e, "success": False}` on failure. -/
inductive ToolRecord where
  | ok : String → String → ToolRecord
  | fail : String → String → ToolRecord

/-- `AgentState`: the LangGraph state dict. -/
structure AgentState where
  messages : List Message
  tool_results : List ToolRecord
  current_task : String
  context : Args

def ToolRecord.toJson : ToolRecord → JsonValue
  | .ok t r =>
      .obj [("tool", .str t), ("result", .str r), ("success", .bool true)]
  | .fail t e =>
      .obj [("tool", .str t), ("result", .null), ("error", .str e),
            ("success", .bool false)]

/-- A LangChain tool wrapper produced by `_create_tools.make_tool`: a name
plus the captured registry implementation. -/
structure WrappedTool where
  name : String
  func : Impl

/-- The body of `make_tool.tool_wrapper`:
`result.get("result", {}) if isinstance(result, dict) else result`. -/
def toolWrapperPayload : JsonValue → JsonValue
  | .obj l => (dictGet l "result").getD (.obj [])
  | v => v

/-- `tool.invoke(tool_args)`: call the captured implementation and
serialize its payload (`indent=2` spacing elided); an exception raised by
the implementation propagates out of the wrapper. -/
def toolWrapperInvoke (f : Impl) (args : Args) : Except String String :=
  match f args with
  | .ret v => .ok (JsonValue.dumps (toolWrapperPayload v))
  | .exn e => .error e

/-- The linear scan `for tool in self.tools: if tool.name == tool_name`. -/
def findTool (tools : List WrappedTool) (name : String) : Option WrappedTool :=
  tools.find? (fun t => t.name == name)

/-- `tool_call.get("id") or f"call_{tool_name}_{len(tool_results)}"`, where
`len(tool_results)` is read after the success record was appended. -/
def toolCallId (call : ToolCall) (results : List ToolRecord) : String :=
  match call.id with
  | some i => i
  | none => "call_" ++ call.name ++ "_" ++ toString results.length

/-- One iteration of the `for tool_call in last_message.tool_calls` loop of
`_tools_node`, threading the (messages, tool_results) pair: look the name
up among the wrapped tools (no match means the call is skipped with no
record); invoke on match; a success appends a result record and a
`ToolMessage`, an exception appends only a failure record. -/
def processToolCall (tools : List WrappedTool)
    (acc : List Message × List ToolRecord) (call : ToolCall) :
    List Message × List ToolRecord :=
  match findTool tools call.name with
  | none => acc
  | some t =>
    match toolWrapperInvoke t.func call.args with
    | .ok s =>
        let results := acc.2 ++ [ToolRecord.ok call.name s]
        (acc.1 ++ [Message.tool s (toolCallId call results)], results)
    | .error e => (acc.1, acc.2 ++ [ToolRecord.fail call.name e])

/-- `hasattr(m, "tool_calls") and m.tool_calls`, as the list of calls. -/
def msgToolCalls : Message → List ToolCall
  | .ai _ calls => calls
  | _ => []

/-- `XcodeLangGraphAgent._tools_node`. (`messages[-1]` on an empty state
cannot occur after the agent node; the empty case is the identity.) -/
def tools_node (tools : List WrappedTool) (st : AgentState) : AgentState :=
  match st.messages.getLast? with
  | none => st
  | some last =>
    if (msgToolCalls last).isEmpty then st
    else
      let acc := (msgToolCalls last).foldl (processToolCall tools)
        (st.messages, st.tool_results)
      { st with messages := acc.1, tool_results := acc.2 }

/-- `XcodeLangGraphAgent._should_continue` (the `function_calls` fallback
never fires for these message shapes). -/
def should_continue (st : AgentState) : String :=
  match st.messages.getLast? with
  | none => "end"
  | some last => if (msgToolCalls last).isEmpty then "end" else "continue"

/-- The external reasoning collaborator (`self.llm_with_tools.invoke`):
from the conversation to a response message, or a raised exception. -/
def ReasonFn : Type := List Message → Except String Message

/-- `XcodeLangGraphAgent._agent_node`: one blocking reasoning call whose
response is appended to the messages; an exception propagates. -/
def agent_node (reason : ReasonFn) (st : AgentState) :
    Except String AgentState :=
  match reason st.messages with
  | .error e => .error e
  | .ok resp => .ok { st with messages := st.messages ++ [resp] }

/-- The LangGraph runtime's default recursion limit. -/
def recursionLimit : Nat := 25

/-- Modelled from the spec: the compiled graph executor is external to the
repository (the `langgraph` package). Per the spec's termination clause, an
implementation must bound the loop; the runtime enforces its default
recursion limit (25 super-steps) and raises `GraphRecursionError` beyond
it. The wiring is from `_create_graph`: entry at the agent node, a
conditional edge to the tools node ("continue") or END ("end"), and an
unconditional edge from tools back to agent. -/
def runGraph (reason : ReasonFn) (tools : List WrappedTool) :
    Nat → AgentState → Except String AgentState
  | 0, _ => .error "Recursion limit of 25 reached"
  | fuel + 1, st =>
    match agent_node reason st with
    | .error e => .error e
    | .ok st' =>
      if should_continue st' = "continue" then
        runGraph reason tools fuel (tools_node tools st')
      else
        .ok st'

/-- `XcodeLangGraphAgent` after construction: the model identifier, the
bound reasoning function and the wrapped tools. -/
structure Agent where
  model : String
  reason : ReasonFn
  tools : List WrappedTool

/-- `XcodeLangGraphAgent.run_sync` / `run`: drive the compiled graph from
a fresh `AgentState` seeded with the prompt. -/
def Agent.run_sync (a : Agent) (prompt : String) :
    Except String AgentState :=
  runGraph a.reason a.tools recursionLimit
    { messages := [Message.human prompt], tool_results := [],
      current_task := prompt, context := [] }

/-- The fixed `key_tools` list of `_create_tools`. -/
def key_tools : List String :=
  ["list_projects", "check_xcode_cli", "list_devices", "list_schemes",
   "get_llm_status", "build_project", "run_tests", "boot_simulator"]

/-- `XcodeLangGraphAgent._create_tools`: wrap each `key_tools` entry that
has both a catalog definition and a bound implementation. -/
def create_tools (reg : ToolRegistry) : List WrappedTool :=
  key_tools.foldl
    (fun acc n =>
      match dictGet reg.tools n with
      | none => acc
      | some _ =>
        match reg.implementations n with
        | none => acc
        | some f => acc ++ [⟨n, f⟩])
    []

-- ## The protocol dispatcher (`src/unified_mcp_server.py`)

/-- A JSON-RPC response body as produced through `send_response`: exactly
one of `result` or `error` (`error` carries `{"code", "message"}`). -/
inductive RpcOutcome where
  | ok : JsonValue → RpcOutcome
  | err : Int → String → RpcOutcome

/-- A TTL cache (`self._tool_cache` / `self._response_cache`): a string key
to `(insertion time, value)`. -/
def Cache : Type := String → Option (Nat × JsonValue)

/-- `self._cache_ttl = 300` (5 minutes). -/
def cache_ttl : Nat := 300

/-- Python dict assignment on a cache. -/
def cacheInsert (c : Cache) (k : String) (v : Nat × JsonValue) : Cache :=
  fun k' => if k' = k then some v else c k'

/-- The guarded read `if key in cache: t, v = cache[key]; if now - t < ttl`:
a value is visible only while its entry is younger than the TTL (lazy
eviction — a stale entry is ignored, not removed). -/
def liveLookup (c : Cache) (k : String) (now : Nat) : Option JsonValue :=
  match c k with
  | some (t, v) => if now - t < cache_ttl then some v else none
  | none => none

/-- `UnifiedMCPServer` mutable state: the one-way `initialized` flag, the
`_check_langgraph()` availability probe, and the two TTL caches. -/
structure ServerState where
  initialized : Bool
  langgraph_enabled : Bool
  tool_cache : Cache
  response_cache : Cache

/-- `params.get(k)` read as a non-empty string (the dispatcher's falsy
checks `if not tool_name` / `if not prompt`; non-string truthy values are
outside the model). -/
def getStrParam (params : Args) (k : String) : Option String :=
  match dictGet params k with
  | some (.str s) => if s = "" then none else some s
  | _ => none

/-- `params.get(k, {})` read as a dict. -/
def getObjParam (params : Args) (k : String) : Args :=
  match dictGet params k with
  | some (.obj l) => l
  | _ => []

/-- The MCP content envelope
`{"content": [{"type": "text", "text": json.dumps(payload)}]}`. -/
def contentEnvelope (payload : JsonValue) : JsonValue :=
  .obj [("content",
    .arr [.obj [("type", .str "text"),
                ("text", .str (JsonValue.dumps payload))]])]

/-- `tool_{name}_{json.dumps(arguments, sort_keys=True)}`: the response
cache key, order-independent in the argument dict. -/
def cacheKeyFor (name : String) (args : Args) : String :=
  "tool_" ++ name ++ "_" ++ JsonValue.dumps (canonJson (.obj args))

def messageContent : Message → String
  | .human s => s
  | .ai s _ => s
  | .tool s _ => s

/-- The `langgraph_agent` success payload built in `_handle_langgraph_tool`:
final message content, tool results, and counts. -/
def agentRunPayload (st : AgentState) : JsonValue :=
  .obj [("response", .str (match st.messages.getLast? with
          | some m => messageContent m
          | none => "")),
        ("tool_results", .arr (st.tool_results.map ToolRecord.toJson)),
        ("messages_count", .num (st.messages.length : Int)),
        ("steps_executed", .num (st.tool_results.length : Int))]

/-- The `langgraph_workflow` prompt template. -/
def workflowPrompt (workflow : String) (context : Args) : String :=
  "Execute this Xcode development workflow:\n" ++ workflow ++
  "\n\nContext: " ++ JsonValue.dumps (.obj context) ++
  "\n\nBreak this down into steps and execute them using the available tools. Provide clear progress updates."

def allResultsSucceeded (l : List ToolRecord) : Bool :=
  l.all fun r => match r with | .ok _ _ => true | .fail _ _ => false

/-- The final `AgentState` rendered into the workflow payload. (The real
code passes the raw state dict to `json.dumps`, whose message objects are
rendered here by their content; no claim depends on this payload.) -/
def agentStateJson (st : AgentState) : JsonValue :=
  .obj [("messages", .arr (st.messages.map fun m => .str (messageContent m))),
        ("tool_results", .arr (st.tool_results.map ToolRecord.toJson)),
        ("current_task", .str st.current_task),
        ("context", .obj st.context)]

def workflowPayload (workflow : String) (st : AgentState) : JsonValue :=
  .obj [("workflow", .str workflow),
        ("result", agentStateJson st),
        ("steps_executed", .num (st.tool_results.length : Int)),
        ("success", .bool (allResultsSucceeded st.tool_results))]

/-- The `langgraph_status` payload. -/
def statusPayload (reg : ToolRegistry) (lg : Bool) (agentOpt : Option Agent) :
    JsonValue :=
  .obj [("agent_type", .str "LangGraph"),
        ("model", .str (match agentOpt with
          | some a => a.model
          | none => "not_initialized")),
        ("available_tools", .num (reg.tools.length : Int)),
        ("langgraph_tools", .num (match agentOpt with
          | some a => (a.tools.length : Int)
          | none => 0)),
        ("graph_compiled", .bool agentOpt.isSome),
        ("capabilities", .arr [.str "Multi-step task execution",
          .str "State management", .str "Tool orchestration",
          .str "Reasoning and planning"]),
        ("langgraph_enabled", .bool lg)]

/-- `UnifiedMCPServer._handle_langgraph_tool`. Lazy agent creation and the
persona path are collapsed into the optional agent collaborator `agentOpt`
(`None` when creation failed). Every exception inside the `try` body —
missing parameter, failed creation, an error out of `run_sync` — is caught
by the enclosing `except` and mapped to `-32000` with
`"Tool execution failed: " + str(e)`. -/
def handle_langgraph_tool (reg : ToolRegistry) (lg : Bool)
    (agentOpt : Option Agent) (tool_name : String) (arguments : Args) :
    RpcOutcome :=
  if tool_name = "langgraph_agent" then
    match getStrParam arguments "prompt" with
    | none => .err (-32000) "Tool execution failed: prompt is required"
    | some prompt =>
      match agentOpt with
      | none =>
          .err (-32000)
            "Tool execution failed: LangGraph agent could not be created"
      | some a =>
        match a.run_sync prompt with
        | .error e => .err (-32000) ("Tool execution failed: " ++ e)
        | .ok result => .ok (contentEnvelope (agentRunPayload result))
  else if tool_name = "langgraph_workflow" then
    match getStrParam arguments "workflow" with
    | none => .err (-32000) "Tool execution failed: workflow is required"
    | some workflow =>
      match agentOpt with
      | none =>
          .err (-32000)
            "Tool execution failed: LangGraph agent could not be created"
      | some a =>
        match a.run_sync (workflowPrompt workflow
            (getObjParam arguments "context")) with
        | .error e => .err (-32000) ("Tool execution failed: " ++ e)
        | .ok result => .ok (contentEnvelope (workflowPayload workflow result))
  else if tool_name = "langgraph_status" then
    .ok (contentEnvelope (statusPayload reg lg agentOpt))
  else
    .err (-32601) ("Unknown LangGraph tool: " ++ tool_name)

/-- The value of one `handle_tools_call` invocation: the emitted response,
the state after the call, and whether `self.registry.execute_tool` was
invoked (instrumentation for the caching contract; the registry runs
exactly on the non-cached ordinary path). -/
structure CallOutcome where
  response : RpcOutcome
  state : ServerState
  invoked : Bool

/-- `UnifiedMCPServer.handle_tools_call`: reject a missing name with
`-32602`; route `langgraph_`-prefixed names to the orchestration handler
(`-32001` when unavailable), never cached; otherwise consult the response
cache, and on a miss execute through the registry — a `Failure` maps to
`-32000` and is not cached, a `Success` is wrapped in the content
envelope, cached, and returned. -/
def handle_tools_call (reg : ToolRegistry) (agentOpt : Option Agent)
    (st : ServerState) (now : Nat) (params : Args) : CallOutcome :=
  match getStrParam params "name" with
  | none => ⟨.err (-32602) "Invalid params: tool name required", st, false⟩
  | some n =>
    if strStartsWith n "langgraph_" then
      if st.langgraph_enabled = false then
        ⟨.err (-32001)
          "LangGraph not available. Install with: pip install langgraph langchain",
          st, false⟩
      else
        ⟨handle_langgraph_tool reg st.langgraph_enabled agentOpt n
          (getObjParam params "arguments"), st, false⟩
    else
      match liveLookup st.response_cache
          (cacheKeyFor n (getObjParam params "arguments")) now with
      | some cached => ⟨.ok cached, st, false⟩
      | none =>
        match reg.execute_tool n (getObjParam params "arguments") with
        | .failure msg => ⟨.err (-32000) msg, st, true⟩
        | .success v =>
          ⟨.ok (contentEnvelope v),
            { st with response_cache :=
                (cacheInsert st.response_cache
                  (cacheKeyFor n (getObjParam params "arguments"))
                  (now, contentEnvelope v)) },
            true⟩

-- ## Schema rendering, `tools/list`, `initialize`, `handle_request`

/-- `v.get(k, dflt)` read as a string field of a tool/parameter dict. -/
def objGetStr (v : JsonValue) (k : String) (dflt : String) : String :=
  match v with
  | .obj l =>
    match dictGet l k with
    | some (.str s) => s
    | _ => dflt
  | _ => dflt

/-- `v.get(k)` as an optional string field (present or not). -/
def objGetStrOpt (v : JsonValue) (k : String) : Option String :=
  match v with
  | .obj l =>
    match dictGet l k with
    | some (.str s) => some s
    | _ => none
  | _ => none

/-- `v.get(k, [])` read as a list field. -/
def objGetArr (v : JsonValue) (k : String) : List JsonValue :=
  match v with
  | .obj l =>
    match dictGet l k with
    | some (.arr xs) => xs
    | _ => []
  | _ => []

/-- `v.get(k, dflt)` read as a boolean field (`param.get("required", True)`). -/
def objGetBoolD (v : JsonValue) (k : String) (dflt : Bool) : Bool :=
  match v with
  | .obj l =>
    match dictGet l k with
    | some (.bool b) => b
    | _ => dflt
  | _ => dflt

/-- The example/enum entries `_get_tool_schema_enhanced` adds for known
parameter names. -/
def paramExtras (pname : String) : List (String × JsonValue) :=
  if pname = "project_path" then
    [("examples", .arr [.str "/path/to/MyApp.xcodeproj",
                        .str "./MyApp.xcodeproj"])]
  else if pname = "scheme" then
    [("examples", .arr [.str "MyApp", .str "MyAppTests"])]
  else if pname = "device_name" then
    [("examples", .arr [.str "iPhone 15 Pro", .str "iPad Pro"])]
  else if pname = "bundle_id" then
    [("examples", .arr [.str "com.example.MyApp"])]
  else if pname = "configuration" then
    [("enum", .arr [.str "Debug", .str "Release"])]
  else []

/-- One rendered property of the input schema. -/
def renderParamProp (p : JsonValue) : JsonValue :=
  let pname := objGetStr p "name" ""
  .obj ([("type", .str (objGetStr p "type" "string")),
         ("description", .str (match objGetStrOpt p "description" with
           | some d => d
           | none => pname ++ " parameter"))] ++ paramExtras pname)

/-- The schema object `_get_tool_schema_enhanced` renders for one catalog
tool definition (before caching). -/
def renderToolSchema (tool_def : JsonValue) : JsonValue :=
  let params := objGetArr tool_def "parameters"
  let properties := params.map fun p => (objGetStr p "name" "", renderParamProp p)
  let required :=
    (params.filter fun p => objGetBoolD p "required" true).map
      fun p => objGetStr p "name" ""
  .obj [("name", .str (objGetStr tool_def "name" "")),
        ("description", .str (objGetStr tool_def "description" "")),
        ("inputSchema", .obj
          ([("type", .str "object"), ("properties", .obj properties)] ++
           (if required.isEmpty then []
            else [("required", .arr (required.map JsonValue.str))])))]

/-- `UnifiedMCPServer._get_tool_schema_enhanced`: serve a live cached
schema, else render and cache under `schema_<name>`. -/
def get_tool_schema_enhanced (st : ServerState) (now : Nat)
    (tool_def : JsonValue) : JsonValue × ServerState :=
  match liveLookup st.tool_cache
      ("schema_" ++ objGetStr tool_def "name" "") now with
  | some cached => (cached, st)
  | none =>
    (renderToolSchema tool_def,
     { st with tool_cache :=
        (cacheInsert st.tool_cache
          ("schema_" ++ objGetStr tool_def "name" "")
          (now, renderToolSchema tool_def)) })

/-- The three LangGraph tool schemas appended by `handle_tools_list`
(property descriptions, examples and size bounds elided; no claim reads
these literals). -/
def langgraphToolSchemas : List JsonValue :=
  [.obj [("name", .str "langgraph_agent"),
         ("description", .str "LangGraph subagentic agent for complex Xcode development workflows. Handles multi-step tasks, reasoning, and tool orchestration with state management."),
         ("inputSchema", .obj [("type", .str "object"),
           ("properties", .obj [("prompt", .obj [("type", .str "string")]),
             ("model", .obj [("type", .str "string")]),
             ("persona", .obj [("type", .str "object")])]),
           ("required", .arr [.str "prompt"])])],
   .obj [("name", .str "langgraph_workflow"),
         ("description", .str "Execute a multi-step Xcode workflow using LangGraph state machine. Automatically orchestrates multiple tools in sequence."),
         ("inputSchema", .obj [("type", .str "object"),
           ("properties", .obj [("workflow", .obj [("type", .str "string")]),
             ("context", .obj [("type", .str "object")]),
             ("persona", .obj [("type", .str "object")])]),
           ("required", .arr [.str "workflow"])])],
   .obj [("name", .str "langgraph_status"),
         ("description", .str "Get status of LangGraph agent, available workflows, and system capabilities"),
         ("inputSchema", .obj [("type", .str "object"),
           ("properties", .obj [])])]]

/-- `UnifiedMCPServer.handle_tools_list`: render every catalog tool (with
schema caching), appending the LangGraph schemas when available. -/
def handle_tools_list (reg : ToolRegistry) (st : ServerState) (now : Nat) :
    RpcOutcome × ServerState :=
  let rendered := reg.tools.foldl
    (fun (acc : List JsonValue × ServerState) p =>
      let r := get_tool_schema_enhanced acc.2 now p.2
      (acc.1 ++ [r.1], r.2))
    ([], st)
  let tools := rendered.1 ++
    (if st.langgraph_enabled then langgraphToolSchemas else [])
  (.ok (.obj [("tools", .arr tools)]), rendered.2)

/-- The `initialize` result object. -/
def initializeResult (reg : ToolRegistry) (lg : Bool) : JsonValue :=
  .obj [("protocolVersion", .str "2024-11-05"),
        ("capabilities", .obj
          ([("tools", .obj [("listChanged", .bool false)])] ++
           (if lg then
              [("experimental", .obj [("subagentic", .bool true),
                                      ("workflows", .bool true)])]
            else []))),
        ("serverInfo", .obj
          [("name", .str "xcode-mcp-unified"), ("version", .str "2.0.0"),
           ("features", .obj
             [("direct_tools", .num (reg.tools.length : Int)),
              ("langgraph_enabled", .bool lg),
              ("subagentic_tools", .num (if lg then 3 else 0))])])]

/-- `UnifiedMCPServer.handle_initialize`: set `self.initialized = True`
and answer with the capability object. -/
def handle_initialize_req (reg : ToolRegistry) (st : ServerState) :
    RpcOutcome × ServerState :=
  (.ok (initializeResult reg st.langgraph_enabled),
   { st with initialized := true })

/-- `UnifiedMCPServer.handle_request`: the method dispatch with the
two-phase lifecycle gate. `tools/list` and `tools/call` are refused with
`-32002` until `initialize` has run; `notifications/initialized` emits no
response; unknown methods yield `-32601`. The response is returned instead
of written to stdout (`none` = no response emitted). -/
def handle_request (reg : ToolRegistry) (agentOpt : Option Agent)
    (now : Nat) (st : ServerState) (method : String) (params : Args) :
    Option RpcOutcome × ServerState :=
  if method = "initialize" then
    let r := handle_initialize_req reg st
    (some r.1, r.2)
  else if method = "tools/list" then
    if st.initialized = false then
      (some (.err (-32002) "Server not initialized"), st)
    else
      let r := handle_tools_list reg st now
      (some r.1, r.2)
  else if method = "tools/call" then
    if st.initialized = false then
      (some (.err (-32002) "Server not initialized"), st)
    else
      let c := handle_tools_call reg agentOpt st now params
      (some c.response, c.state)
  else if method = "notifications/initialized" then
    (none, st)
  else
    (some (.err (-32601) ("Method not found: " ++ method)), st)

-- ## Authentication (`src/mcp_http_server.py`)

/-- The decision of the HTTP dependency `verify_api_key`: allow, or an
`HTTPException` with a status code and detail. -/
inductive AuthResult where
  | allowed : AuthResult
  | rejected : Nat → String → AuthResult

/-- `verify_api_key(x_api_key)`: skip entirely when `MCP_REQUIRE_AUTH` is
off; allow when no `MCP_API_KEY` is configured (fail-open; the env default
is the empty string); otherwise 401 for a missing/empty header and 403 for
a mismatch. -/
def verify_api_key (require_auth : Bool) (api_key : String)
    (x_api_key : Option String) : AuthResult :=
  if !require_auth then .allowed
  else if api_key = "" then .allowed
  else
    match x_api_key with
    | none => .rejected 401 "API key required"
    | some k =>
      if k = "" then .rejected 401 "API key required"
      else if k ≠ api_key then .rejected 403 "Invalid API key"
      else .allowed

/-- The connection-time decision of `websocket_endpoint`. -/
inductive WsDecision where
  | accepted : WsDecision
  | closed : Nat → String → WsDecision

/-- The check at the top of `websocket_endpoint`: only when both the flag
and the key are configured is the `api_key` query parameter compared;
anything not equal to the configured key closes the socket with 1008. -/
def websocket_auth (require_auth : Bool) (api_key : String)
    (query_key : Option String) : WsDecision :=
  if require_auth && api_key ≠ "" then
    if query_key ≠ some api_key then .closed 1008 "Invalid API key"
    else .accepted
  else .accepted

-- ## C9: authentication is fail-open

/-- C9. HTTP and WebSocket authentication: with enforcement on but no
configured secret every request is allowed (fail-open); with enforcement
off every request is allowed whatever key is presented; and a rejection
(HTTP 401/403, WebSocket close 1008) happens only when the flag is set,
a secret is configured, and the presented key differs from it. -/
theorem c9_theorem :
    (∀ (presented : Option String),
        verify_api_key true "" presented = .allowed ∧
        websocket_auth true "" presented = .accepted) ∧
    (∀ (api_key : String) (presented : Option String),
        verify_api_key false api_key presented = .allowed ∧
        websocket_auth false api_key presented = .accepted) ∧
    (∀ (ra : Bool) (api_key : String) (presented : Option String)
        (s : Nat) (d : String),
        verify_api_key ra api_key presented = .rejected s d →
        ra = true ∧ api_key ≠ "" ∧ presented ≠ some api_key) ∧
    (∀ (ra : Bool) (api_key : String) (q : Option String)
        (c : Nat) (r : String),
        websocket_auth ra api_key q = .closed c r →
        ra = true ∧ api_key ≠ "" ∧ q ≠ some api_key) := by
  refine ⟨fun presented => ⟨by simp [verify_api_key], by simp [websocket_auth]⟩,
      fun api_key presented => ⟨by simp [verify_api_key], by simp [websocket_auth]⟩,
      fun ra api_key presented s d h => ?_, fun ra api_key q c r h => ?_⟩
  · cases ra with
    | false => simp [verify_api_key] at h
    | true =>
      by_cases hk : api_key = ""
      · simp [verify_api_key, hk] at h
      · refine ⟨rfl, hk, ?_⟩
        cases presented with
        | none => simp
        | some k =>
          by_cases hke : k = ""
          · simp [hke]
            intro heq
            exact hk heq.symm
          · by_cases hne : k = api_key
            · simp [verify_api_key, hk, hke, hne] at h
            · simp [hne]
  · cases ra with
    | false => simp [websocket_auth] at h
    | true =>
      by_cases hk : api_key = ""
      · simp [websocket_auth, hk] at h
      · by_cases hq : q = some api_key
        · simp [websocket_auth, hk, hq] at h
        · exact ⟨rfl, hk, hq⟩

/-- C9 witness: concrete instances of each clause — fail-open with an
arbitrary presented key, disabled enforcement, and a concrete rejection
implying flag, secret and mismatch. -/
theorem c9_witness :
    verify_api_key true "" (some "anything") = .allowed ∧
    websocket_auth false "secret" none = .accepted ∧
    (true = true ∧ ("secret" : String) ≠ "" ∧
      (some "wrong" : Option String) ≠ some "secret") ∧
    (true = true ∧ ("secret" : String) ≠ "" ∧
      (some "wrong" : Option String) ≠ some "secret") :=
  ⟨(c9_theorem.1 (some "anything")).1,
   (c9_theorem.2.1 "secret" none).2,
   c9_theorem.2.2.1 true "secret" (some "wrong") 403 "Invalid API key" rfl,
   c9_theorem.2.2.2 true "secret" (some "wrong") 1008 "Invalid API key" rfl⟩

-- ## C6: two-phase lifecycle

theorem handle_tools_call_initialized (reg : ToolRegistry)
    (agentOpt : Option Agent) (st : ServerState) (now : Nat) (params : Args) :
    (handle_tools_call reg agentOpt st now params).state.initialized =
      st.initialized := by
  unfold handle_tools_call
  repeat' split
  all_goals rfl

theorem get_tool_schema_enhanced_initialized (st : ServerState) (now : Nat)
    (tool_def : JsonValue) :
    (get_tool_schema_enhanced st now tool_def).2.initialized =
      st.initialized := by
  unfold get_tool_schema_enhanced
  repeat' split
  all_goals rfl

theorem handle_tools_list_initialized (reg : ToolRegistry)
    (st : ServerState) (now : Nat) :
    (handle_tools_list reg st now).2.initialized = st.initialized := by
  unfold handle_tools_list
  suffices h : ∀ (l : List (String × JsonValue))
      (acc : List JsonValue × ServerState),
      (l.foldl
        (fun (acc : List JsonValue × ServerState) p =>
          let r := get_tool_schema_enhanced acc.2 now p.2
          (acc.1 ++ [r.1], r.2))
        acc).2.initialized = acc.2.initialized by
    exact h reg.tools ([], st)
  intro l
  induction l with
  | nil => intro acc; rfl
  | cons p rest ih =>
    intro acc
    simp only [List.foldl_cons]
    rw [ih]
    exact get_tool_schema_enhanced_initialized acc.2 now p.2

theorem handle_request_preserves_initialized (reg : ToolRegistry)
    (agentOpt : Option Agent) (now : Nat) (st : ServerState) (params : Args)
    (m : String) (hm : m ≠ "initialize") :
    (handle_request reg agentOpt now st m params).2.initialized =
      st.initialized := by
  unfold handle_request
  split
  · next hmeq => exact absurd hmeq hm
  · split
    · split
      · rfl
      · exact handle_tools_list_initialized reg st now
    · split
      · split
        · rfl
        · exact handle_tools_call_initialized reg agentOpt st now params
      · split
        · rfl
        · rfl

/-- C6. Lifecycle invariants of `handle_request`: while uninitialized,
`tools/list` and `tools/call` answer `-32002` and leave the whole state
unchanged; no method other than `initialize` changes the `initialized`
flag; and the flag, once set, is never cleared by any request (the
transition is one-way). -/
theorem c6_theorem :
    (∀ (reg : ToolRegistry) (agentOpt : Option Agent) (now : Nat)
        (st : ServerState) (params : Args) (m : String),
        st.initialized = false → (m = "tools/list" ∨ m = "tools/call") →
        handle_request reg agentOpt now st m params =
          (some (.err (-32002) "Server not initialized"), st)) ∧
    (∀ (reg : ToolRegistry) (agentOpt : Option Agent) (now : Nat)
        (st : ServerState) (params : Args) (m : String), m ≠ "initialize" →
        (handle_request reg agentOpt now st m params).2.initialized =
          st.initialized) ∧
    (∀ (reg : ToolRegistry) (agentOpt : Option Agent) (now : Nat)
        (st : ServerState) (params : Args) (m : String),
        st.initialized = true →
        (handle_request reg agentOpt now st m params).2.initialized = true) := by
  refine ⟨fun reg agentOpt now st params m hinit hm => ?_,
      fun reg agentOpt now st params m hm => ?_,
      fun reg agentOpt now st params m hinit => ?_⟩
  · rcases hm with rfl | rfl
    · simp [handle_request, hinit]
    · simp [handle_request, hinit]
  · exact handle_request_preserves_initialized reg agentOpt now st params m hm
  · by_cases hm : m = "initialize"
    · subst hm
      simp [handle_request, handle_initialize_req]
    · rw [handle_request_preserves_initialized reg agentOpt now st params m hm]
      exact hinit

-- Concrete fixtures used by witnesses and counterexamples.

def emptyCache : Cache := fun _ => none

def reg0 : ToolRegistry := ⟨[], fun _ => none⟩

def uninitState : ServerState := ⟨false, true, emptyCache, emptyCache⟩

def st0 : ServerState := ⟨true, true, emptyCache, emptyCache⟩

/-- C6 witness: before `initialize`, `tools/list` answers `-32002` with the
state untouched; `tools/call` leaves the flag alone; once initialized the
flag survives a `tools/list`. -/
theorem c6_witness :
    handle_request reg0 none 0 uninitState "tools/list" [] =
      (some (.err (-32002) "Server not initialized"), uninitState) ∧
    (handle_request reg0 none 0 uninitState "tools/call" []).2.initialized =
      uninitState.initialized ∧
    (handle_request reg0 none 0 st0 "tools/list" []).2.initialized = true :=
  ⟨c6_theorem.1 reg0 none 0 uninitState [] "tools/list" rfl (Or.inl rfl),
   c6_theorem.2.1 reg0 none 0 uninitState [] "tools/call" (by decide),
   c6_theorem.2.2 reg0 none 0 st0 [] "tools/list" rfl⟩

-- ## C3 / C4 / C5: `tools/call` caching and failure handling

/-- The `params` dict of a `tools/call` request. -/
def callParams (n : String) (args : Args) : Args :=
  [("name", .str n), ("arguments", .obj args)]

theorem getStrParam_callParams (n : String) (args : Args) (hn : n ≠ "") :
    getStrParam (callParams n args) "name" = some n := by
  simp [getStrParam, callParams, dictGet, hn]

theorem getObjParam_callParams (n : String) (args : Args) :
    getObjParam (callParams n args) "arguments" = args := by
  simp [getObjParam, callParams, dictGet]

theorem cacheKeyFor_canon (n : String) (args₁ args₂ : Args)
    (h : canonJson (.obj args₂) = canonJson (.obj args₁)) :
    cacheKeyFor n args₂ = cacheKeyFor n args₁ := by
  unfold cacheKeyFor
  rw [h]

/-- C3. Caching of ordinary `tools/call` requests: a first successful call
executes the implementation and caches the enveloped response; a second
call with the same name and canonically equal arguments within the TTL
returns that cached response unchanged without invoking the registry, and
leaves the state unchanged; after TTL expiry the registry is invoked
again. -/
theorem c3_theorem (reg : ToolRegistry) (agentOpt : Option Agent)
    (st : ServerState) (now₁ now₂ : Nat) (n : String) (args₁ args₂ : Args)
    (v : JsonValue)
    (hn : n ≠ "")
    (hord : strStartsWith n "langgraph_" = false)
    (hmiss : st.response_cache (cacheKeyFor n args₁) = none)
    (hsucc : reg.execute_tool n args₁ = .success v)
    (hcanon : canonJson (.obj args₂) = canonJson (.obj args₁)) :
    ∃ resp st₁,
      handle_tools_call reg agentOpt st now₁ (callParams n args₁) =
        ⟨.ok resp, st₁, true⟩ ∧
      (now₂ - now₁ < cache_ttl →
        handle_tools_call reg agentOpt st₁ now₂ (callParams n args₂) =
          ⟨.ok resp, st₁, false⟩) ∧
      (¬ now₂ - now₁ < cache_ttl →
        (handle_tools_call reg agentOpt st₁ now₂
          (callParams n args₂)).invoked = true) := by
  have hlive₁ : liveLookup st.response_cache (cacheKeyFor n args₁) now₁ =
      none := by
    simp [liveLookup, hmiss]
  refine ⟨contentEnvelope v,
    { st with response_cache :=
        (cacheInsert st.response_cache (cacheKeyFor n args₁)
          (now₁, contentEnvelope v)) }, ?_, ?_, ?_⟩
  · unfold handle_tools_call
    rw [getStrParam_callParams n args₁ hn]
    simp only [hord, Bool.false_eq_true, if_false]
    rw [getObjParam_callParams, hlive₁, hsucc]
  · intro hfresh
    unfold handle_tools_call
    rw [getStrParam_callParams n args₂ hn]
    simp only [hord, Bool.false_eq_true, if_false]
    rw [getObjParam_callParams, cacheKeyFor_canon n args₁ args₂ hcanon]
    have : liveLookup
        (cacheInsert st.response_cache (cacheKeyFor n args₁)
          (now₁, contentEnvelope v))
        (cacheKeyFor n args₁) now₂ = some (contentEnvelope v) := by
      simp [liveLookup, cacheInsert, hfresh]
    rw [this]
  · intro hstale
    unfold handle_tools_call
    rw [getStrParam_callParams n args₂ hn]
    simp only [hord, Bool.false_eq_true, if_false]
    rw [getObjParam_callParams, cacheKeyFor_canon n args₁ args₂ hcanon]
    have : liveLookup
        (cacheInsert st.response_cache (cacheKeyFor n args₁)
          (now₁, contentEnvelope v))
        (cacheKeyFor n args₁) now₂ = none := by
      simp [liveLookup, cacheInsert, hstale]
    rw [this]
    cases reg.execute_tool n args₂ with
    | failure msg => rfl
    | success w => rfl

def echoImpl : Impl := fun _ => .ret (.str "pong")

def regPing : ToolRegistry :=
  ⟨[("ping", .obj [])], fun n => if n = "ping" then some echoImpl else none⟩

def argsOrderA : Args := [("b", .num 1), ("a", .num 2)]

def argsOrderB : Args := [("a", .num 2), ("b", .num 1)]

/-- C3 witness: a concrete `ping` call at time 0 followed by the same call
with the arguments given in the opposite order at time 10. -/
theorem c3_witness :
    ∃ resp st₁,
      handle_tools_call regPing none st0 0 (callParams "ping" argsOrderA) =
        ⟨.ok resp, st₁, true⟩ ∧
      (10 - 0 < cache_ttl →
        handle_tools_call regPing none st₁ 10 (callParams "ping" argsOrderB) =
          ⟨.ok resp, st₁, false⟩) ∧
      (¬ 10 - 0 < cache_ttl →
        (handle_tools_call regPing none st₁ 10
          (callParams "ping" argsOrderB)).invoked = true) :=
  c3_theorem regPing none st0 0 10 "ping" argsOrderA argsOrderB (.str "pong")
    (by decide) rfl rfl rfl rfl

theorem tools_call_failure_shape (reg : ToolRegistry)
    (agentOpt : Option Agent) (st : ServerState) (now : Nat) (n : String)
    (args : Args) (msg : String)
    (hn : n ≠ "")
    (hord : strStartsWith n "langgraph_" = false)
    (hlive : liveLookup st.response_cache (cacheKeyFor n args) now = none)
    (hfail : reg.execute_tool n args = .failure msg) :
    handle_tools_call reg agentOpt st now (callParams n args) =
      ⟨.err (-32000) msg, st, true⟩ := by
  unfold handle_tools_call
  rw [getStrParam_callParams n args hn]
  simp only [hord, Bool.false_eq_true, if_false]
  rw [getObjParam_callParams, hlive, hfail]

/-- C4. A `tools/call` whose execution yields a `Failure` outcome answers
with JSON-RPC error `-32000` carrying the failure message, and the whole
server state — in particular the response cache — is returned unchanged:
failures are never inserted into the cache. -/
theorem c4_theorem (reg : ToolRegistry) (agentOpt : Option Agent)
    (st : ServerState) (now : Nat) (n : String) (args : Args) (msg : String)
    (hn : n ≠ "")
    (hord : strStartsWith n "langgraph_" = false)
    (hlive : liveLookup st.response_cache (cacheKeyFor n args) now = none)
    (hfail : reg.execute_tool n args = .failure msg) :
    handle_tools_call reg agentOpt st now (callParams n args) =
      ⟨.err (-32000) msg, st, true⟩ :=
  tools_call_failure_shape reg agentOpt st now n args msg hn hord hlive hfail

def boomImpl : Impl := fun _ => .exn "boom"

def regBoom : ToolRegistry :=
  ⟨[("build_project", .obj [])],
   fun n => if n = "build_project" then some boomImpl else none⟩

/-- C4 witness: a concrete raising implementation maps to `-32000 boom`
with the state unchanged. -/
theorem c4_witness :
    handle_tools_call regBoom none st0 0 (callParams "build_project" []) =
      ⟨.err (-32000) "boom", st0, true⟩ :=
  c4_theorem regBoom none st0 0 "build_project" [] "boom" (by decide) rfl
    rfl rfl

/-- C5, counterexample. The claim covers every tool name with no bound
implementation, "including every name absent from the catalog" — but a
`langgraph_`-prefixed name absent from the catalog is routed to the
orchestration handler and answers `-32601` ("Unknown LangGraph tool"),
not `-32000` with the registry's failure message. -/
theorem c5_counterexample :
    handle_tools_call reg0 none st0 0 (callParams "langgraph_bogus" []) =
      ⟨.err (-32601) "Unknown LangGraph tool: langgraph_bogus", st0, false⟩ ∧
    (-32601 : Int) ≠ -32000 :=
  ⟨rfl, by decide⟩

/-- C5, amended. For every tool name with no bound implementation,
`execute_tool` returns a `Failure` whose message contains the name (and,
being a total function of the model, cannot raise); and a `tools/call`
naming such a tool yields `-32000` with that registry message — provided
the name does not carry the orchestration marker `langgraph_`, which is
routed to the orchestration handler instead. -/
theorem c5_theorem (reg : ToolRegistry) (agentOpt : Option Agent)
    (st : ServerState) (now : Nat) (n : String) (args : Args)
    (hnone : reg.implementations n = none)
    (hn : n ≠ "")
    (hord : strStartsWith n "langgraph_" = false)
    (hlive : liveLookup st.response_cache (cacheKeyFor n args) now = none) :
    reg.execute_tool n args =
      .failure ("Tool \x27" ++ n ++ "\x27 not implemented") ∧
    (∃ pre post,
      "Tool \x27" ++ n ++ "\x27 not implemented" = pre ++ n ++ post) ∧
    handle_tools_call reg agentOpt st now (callParams n args) =
      ⟨.err (-32000) ("Tool \x27" ++ n ++ "\x27 not implemented"), st,
        true⟩ := by
  have hexec : reg.execute_tool n args =
      .failure ("Tool \x27" ++ n ++ "\x27 not implemented") := by
    unfold ToolRegistry.execute_tool
    rw [hnone]
  exact ⟨hexec, ⟨"Tool \x27", "\x27 not implemented", rfl⟩,
    tools_call_failure_shape reg agentOpt st now n args _ hn hord hlive hexec⟩

/-- C5 witness: the spec's own scenario name `does_not_exist` against an
empty registry. -/
theorem c5_witness :
    reg0.execute_tool "does_not_exist" [] =
      .failure ("Tool \x27" ++ "does_not_exist" ++ "\x27 not implemented") ∧
    (∃ pre post,
      "Tool \x27" ++ "does_not_exist" ++ "\x27 not implemented" =
        pre ++ "does_not_exist" ++ post) ∧
    handle_tools_call reg0 none st0 0 (callParams "does_not_exist" []) =
      ⟨.err (-32000)
        ("Tool \x27" ++ "does_not_exist" ++ "\x27 not implemented"), st0,
        true⟩ :=
  c5_theorem reg0 none st0 0 "does_not_exist" [] rfl (by decide) rfl rfl

-- ## C2: reasoning-function failure

def failingReason : ReasonFn := fun _ => .error "network error"

def failingAgent : Agent := ⟨"ollama:qwen3-coder:30b", failingReason, []⟩

/-- C2, counterexample. When the reasoning function raises on the first
step, `run_sync` propagates the error: no `AgentState` — in particular not
the partial one with the seeded message — is returned to the caller, and
the RPC layer answers only `-32000` with the exception text. The claim
that the partial `AgentState` "is still returned to the caller rather than
discarded" is therefore false. -/
theorem c2_counterexample :
    failingAgent.run_sync "List all projects" = .error "network error" ∧
    (∀ st : AgentState,
      failingAgent.run_sync "List all projects" ≠ .ok st) ∧
    handle_langgraph_tool reg0 true (some failingAgent) "langgraph_agent"
        [("prompt", .str "List all projects")] =
      .err (-32000) "Tool execution failed: network error" :=
  ⟨rfl,
   fun st h => by
     rw [show failingAgent.run_sync "List all projects" =
       .error "network error" from rfl] at h
     exact Except.noConfusion h,
   rfl⟩

/-- C2, amended. If the reasoning function fails, the loop terminates
immediately in an error state carrying only the exception message; the
partial `AgentState` (messages and toolResults accumulated so far) is
discarded, and the RPC caller receives JSON-RPC error `-32000` with
"Tool execution failed: <message>" instead of the partial state. -/
theorem c2_theorem :
    (∀ (reason : ReasonFn) (tools : List WrappedTool) (fuel : Nat)
        (st : AgentState) (e : String),
        reason st.messages = .error e →
        runGraph reason tools (fuel + 1) st = .error e) ∧
    (∀ (reg : ToolRegistry) (lg : Bool) (a : Agent) (prompt e : String),
        prompt ≠ "" → a.run_sync prompt = .error e →
        handle_langgraph_tool reg lg (some a) "langgraph_agent"
            [("prompt", .str prompt)] =
          .err (-32000) ("Tool execution failed: " ++ e)) := by
  constructor
  · intro reason tools fuel st e h
    simp [runGraph, agent_node, h]
  · intro reg lg a prompt e hprompt hrun
    unfold handle_langgraph_tool
    simp only [if_pos rfl]
    have hp : getStrParam [("prompt", JsonValue.str prompt)] "prompt" =
        some prompt := by
      simp [getStrParam, dictGet, hprompt]
    rw [hp]
    simp [hrun]

def seedState : AgentState :=
  { messages := [Message.human "Build the app"], tool_results := [],
    current_task := "Build the app", context := [] }

/-- C2 witness: both amended clauses applied at a concrete failing
reasoning function. -/
theorem c2_witness :
    runGraph failingReason [] 5 seedState = .error "network error" ∧
    handle_langgraph_tool reg0 true (some failingAgent) "langgraph_agent"
        [("prompt", .str "Build the app")] =
      .err (-32000) ("Tool execution failed: " ++ "network error") :=
  ⟨c2_theorem.1 failingReason [] 4 seedState "network error" rfl,
   c2_theorem.2 reg0 true failingAgent "Build the app" "network error"
     (by decide) rfl⟩

-- ## C8: bounded termination of the orchestration loop

/-- C8. For every reasoning function that requests a tool call on every
turn, the loop terminates with an error at every iteration bound (in
particular the runtime's 25), and the `langgraph_agent` RPC surfaces that
bound violation as a `-32000` Failure-class response — it never runs
unbounded. -/
theorem c8_theorem (reg : ToolRegistry) (lg : Bool) (a : Agent)
    (prompt : String) (hprompt : prompt ≠ "")
    (halways : ∀ msgs, ∃ content calls,
        a.reason msgs = .ok (.ai content calls) ∧ calls ≠ []) :
    (∀ (fuel : Nat) (st : AgentState), ∃ e,
        runGraph a.reason a.tools fuel st = .error e) ∧
    ∃ e, a.run_sync prompt = .error e ∧
      handle_langgraph_tool reg lg (some a) "langgraph_agent"
          [("prompt", .str prompt)] =
        .err (-32000) ("Tool execution failed: " ++ e) := by
  have main : ∀ (fuel : Nat) (st : AgentState), ∃ e,
      runGraph a.reason a.tools fuel st = .error e := by
    intro fuel
    induction fuel with
    | zero => exact fun st => ⟨"Recursion limit of 25 reached", rfl⟩
    | succ k ih =>
      intro st
      obtain ⟨content, calls, hr, hne⟩ := halways st.messages
      have hcont : should_continue
          { st with messages := st.messages ++ [Message.ai content calls] } =
          "continue" := by
        simp [should_continue, List.getLast?_concat, msgToolCalls, hne]
      simp only [runGraph, agent_node, hr, hcont, if_pos]
      exact ih _
  refine ⟨main, ?_⟩
  obtain ⟨e, he⟩ := main recursionLimit
    { messages := [Message.human prompt], tool_results := [],
      current_task := prompt, context := [] }
  refine ⟨e, he, ?_⟩
  unfold handle_langgraph_tool
  simp only [if_pos rfl]
  have hp : getStrParam [("prompt", JsonValue.str prompt)] "prompt" =
      some prompt := by
    simp [getStrParam, dictGet, hprompt]
  rw [hp]
  have hrs : a.run_sync prompt = Except.error e := he
  simp [hrs]

def loopingReason : ReasonFn :=
  fun _ => .ok (.ai "calling" [⟨none, "check_xcode_cli", []⟩])

def cliImpl : Impl := fun _ => .ret (.obj [("installed", .bool true)])

def loopingAgent : Agent :=
  ⟨"ollama:qwen3-coder:30b", loopingReason,
   [⟨"check_xcode_cli", cliImpl⟩]⟩

/-- C8 witness: a stub that always requests one tool call terminates in an
error at every bound and yields `-32000` through the RPC layer. -/
theorem c8_witness :
    (∀ (fuel : Nat) (st : AgentState), ∃ e,
        runGraph loopingAgent.reason loopingAgent.tools fuel st =
          .error e) ∧
    ∃ e, loopingAgent.run_sync "Check the toolchain" = .error e ∧
      handle_langgraph_tool reg0 true (some loopingAgent) "langgraph_agent"
          [("prompt", .str "Check the toolchain")] =
        .err (-32000) ("Tool execution failed: " ++ e) :=
  c8_theorem reg0 true loopingAgent "Check the toolchain" (by decide)
    (fun _ => ⟨"calling", [⟨none, "check_xcode_cli", []⟩], rfl,
      List.cons_ne_nil _ _⟩)

-- ## C7: the Act step under partial failure

def failTool : WrappedTool := ⟨"run_tests", boomImpl⟩

def cexAgentState : AgentState :=
  { messages := [.ai "" [⟨some "call_1", "run_tests", []⟩]],
    tool_results := [], current_task := "", context := [] }

/-- C7, counterexample. When a requested call raises, `_tools_node`
appends the failure record but appends NO result message: here the single
requested call (id `call_1`) raises, `toolResults` gains the failure
record, and `messages` is left exactly as it was — no message tagged with
the originating call's identifier ever appears, contradicting the claim
that one is appended even when the call raises. -/
theorem c7_counterexample :
    (tools_node [failTool] cexAgentState).messages =
      cexAgentState.messages ∧
    (tools_node [failTool] cexAgentState).tool_results =
      [.fail "run_tests" "boom"] ∧
    (∀ (s i : String), (tools_node [failTool] cexAgentState).messages ≠
      cexAgentState.messages ++ [.tool s i]) := by
  refine ⟨rfl, rfl, ?_⟩
  intro s i h
  have h1 : (tools_node [failTool] cexAgentState).messages.length = 1 := rfl
  rw [h] at h1
  simp [cexAgentState] at h1

/-- C7, amended. Requested calls are processed in the order presented and
a raising call does not abort the batch: with three matching calls where
the second raises, all three result records are appended to
`toolResults` in order; result messages tagged with the originating call
identifiers are appended only for the two succeeding calls (the raising
call contributes no message); and after the Act node the loop continues —
its next step applies the reasoning function again. -/
theorem c7_theorem (tools : List WrappedTool) (st : AgentState)
    (pre : List Message) (content : String) (c₁ c₂ c₃ : ToolCall)
    (t₁ t₂ t₃ : WrappedTool) (s₁ s₃ e₂ : String)
    (h₁ : findTool tools c₁.name = some t₁)
    (hi₁ : toolWrapperInvoke t₁.func c₁.args = .ok s₁)
    (h₂ : findTool tools c₂.name = some t₂)
    (hi₂ : toolWrapperInvoke t₂.func c₂.args = .error e₂)
    (h₃ : findTool tools c₃.name = some t₃)
    (hi₃ : toolWrapperInvoke t₃.func c₃.args = .ok s₃)
    (hmsgs : st.messages = pre ++ [.ai content [c₁, c₂, c₃]]) :
    tools_node tools st =
      { st with
        messages := st.messages ++
          [.tool s₁ (toolCallId c₁ (st.tool_results ++ [.ok c₁.name s₁])),
           .tool s₃ (toolCallId c₃ (st.tool_results ++
             [.ok c₁.name s₁, .fail c₂.name e₂, .ok c₃.name s₃]))],
        tool_results := st.tool_results ++
          [.ok c₁.name s₁, .fail c₂.name e₂, .ok c₃.name s₃] } ∧
    (∀ (reason : ReasonFn) (fuel : Nat) (st₀ : AgentState) (resp : Message),
        reason st₀.messages = .ok resp →
        should_continue { st₀ with messages := st₀.messages ++ [resp] } =
          "continue" →
        runGraph reason tools (fuel + 1) st₀ =
          runGraph reason tools fuel
            (tools_node tools
              { st₀ with messages := st₀.messages ++ [resp] })) := by
  constructor
  · have hlast : st.messages.getLast? =
        some (.ai content [c₁, c₂, c₃]) := by
      rw [hmsgs]
      exact List.getLast?_concat pre
    unfold tools_node
    rw [hlast]
    simp only [msgToolCalls, List.isEmpty_cons, Bool.false_eq_true,
      if_false, List.foldl_cons, List.foldl_nil, processToolCall,
      h₁, hi₁, h₂, hi₂, h₃, hi₃]
    simp [List.append_assoc]
  · intro reason fuel st₀ resp hr hcont
    simp only [runGraph, agent_node, hr, hcont]
    simp

-- ## C10: only the eight wrapped tools; unmatched calls are skipped

/-- C10. The orchestration loop wraps only tools drawn from the fixed
eight-name `key_tools` list, and in the Act step a requested call whose
name matches none of the wrapped tools is silently skipped: the
(messages, toolResults) accumulator is returned unchanged, with no
failure record. -/
theorem c10_theorem :
    (∀ (reg : ToolRegistry) (t : WrappedTool),
        t ∈ create_tools reg → t.name ∈ key_tools) ∧
    (∀ (tools : List WrappedTool) (acc : List Message × List ToolRecord)
        (call : ToolCall), findTool tools call.name = none →
        processToolCall tools acc call = acc) := by
  constructor
  · intro reg t ht
    have general : ∀ (names : List String) (acc : List WrappedTool),
        t ∈ names.foldl
          (fun acc n =>
            match dictGet reg.tools n with
            | none => acc
            | some _ =>
              match reg.implementations n with
              | none => acc
              | some f => acc ++ [⟨n, f⟩]) acc →
        t ∈ acc ∨ t.name ∈ names := by
      intro names
      induction names with
      | nil => exact fun acc h => Or.inl h
      | cons n rest ih =>
        intro acc h
        simp only [List.foldl_cons] at h
        rcases ih _ h with hmem | hname
        · cases hd : dictGet reg.tools n with
          | none =>
            simp only [hd] at hmem
            exact Or.inl hmem
          | some d =>
            cases hi : reg.implementations n with
            | none =>
              simp only [hd, hi] at hmem
              exact Or.inl hmem
            | some f =>
              simp only [hd, hi, List.mem_append] at hmem
              rcases hmem with hmem | hmem
              · exact Or.inl hmem
              · right
                have : t = ⟨n, f⟩ := by simpa using hmem
                rw [this]
                exact List.mem_cons_self _ _
        · exact Or.inr (List.mem_cons_of_mem _ hname)
    rcases general key_tools [] ht with h0 | hk
    · exact absurd h0 (List.not_mem_nil _)
    · exact hk
  · intro tools acc call hnone
    unfold processToolCall
    rw [hnone]

def regSample : ToolRegistry :=
  ⟨[("build_project", .obj [("name", .str "build_project")])],
   fun n => if n = "build_project" then some boomImpl else none⟩

/-- C10 witness: the single wrapped tool of a one-tool registry carries a
`key_tools` name, and a call naming an unwrapped tool leaves the
accumulator untouched. -/
theorem c10_witness :
    (⟨"build_project", boomImpl⟩ : WrappedTool).name ∈ key_tools ∧
    processToolCall [] ([], []) ⟨none, "nonexistent_tool", []⟩ = ([], []) :=
  ⟨c10_theorem.1 regSample ⟨"build_project", boomImpl⟩ (by
      rw [show create_tools regSample =
        [(⟨"build_project", boomImpl⟩ : WrappedTool)] from rfl]
      exact List.mem_singleton.mpr rfl),
   c10_theorem.2 [] ([], []) ⟨none, "nonexistent_tool", []⟩ rfl⟩

def c7Call1 : ToolCall := ⟨some "id1", "list_projects", []⟩

def c7Call2 : ToolCall := ⟨some "id2", "run_tests", []⟩

def c7Call3 : ToolCall := ⟨none, "check_xcode_cli", []⟩

def c7Tools : List WrappedTool :=
  [⟨"list_projects", echoImpl⟩, ⟨"run_tests", boomImpl⟩,
   ⟨"check_xcode_cli", cliImpl⟩]

def c7State : AgentState :=
  { messages := [.human "go", .ai "batch" [c7Call1, c7Call2, c7Call3]],
    tool_results := [], current_task := "go", context := [] }

/-- C7 witness: a concrete three-call batch whose second call raises —
all three records are appended in order, messages grow only by the two
success messages, and the loop hands control back to the reasoning step. -/
theorem c7_witness :
    tools_node c7Tools c7State =
      { c7State with
        messages := c7State.messages ++
          [.tool "\"pong\"" (toolCallId c7Call1
            (c7State.tool_results ++ [.ok c7Call1.name "\"pong\""])),
           .tool "\x7b\x7d" (toolCallId c7Call3
            (c7State.tool_results ++
              [.ok c7Call1.name "\"pong\"", .fail c7Call2.name "boom",
               .ok c7Call3.name "\x7b\x7d"]))],
        tool_results := c7State.tool_results ++
          [.ok c7Call1.name "\"pong\"", .fail c7Call2.name "boom",
           .ok c7Call3.name "\x7b\x7d"] } ∧
    (∀ (reason : ReasonFn) (fuel : Nat) (st₀ : AgentState) (resp : Message),
        reason st₀.messages = .ok resp →
        should_continue { st₀ with messages := st₀.messages ++ [resp] } =
          "continue" →
        runGraph reason c7Tools (fuel + 1) st₀ =
          runGraph reason c7Tools fuel
            (tools_node c7Tools
              { st₀ with messages := st₀.messages ++ [resp] })) :=
  c7_theorem c7Tools c7State [.human "go"] "batch" c7Call1 c7Call2 c7Call3
    ⟨"list_projects", echoImpl⟩ ⟨"run_tests", boomImpl⟩
    ⟨"check_xcode_cli", cliImpl⟩ "\"pong\"" "\x7b\x7d" "boom"
    rfl rfl rfl rfl rfl rfl rfl
